import Mathlib

/-!
Verification of `compare_models.py`: a utility that extracts the nodes of two
model documents into id-indexed maps (`load_nodes_by_id`), and diffs the two
maps (`compare_nodes`).  Documents are deserialized JSON values; we model them
with an inductive `Value` type (numbers restricted to integers — no document
handled here carries fractional numbers).
-/

set_option autoImplicit false

/-- A deserialized JSON document: null, booleans, (integer) numbers, strings,
arrays, and objects (association lists of string keys, as produced by the
deserializer, which yields unique keys). -/
inductive Value : Type where
  | null : Value
  | bool : Bool → Value
  | int : Int → Value
  | str : String → Value
  | list : List Value → Value
  | obj : List (String × Value) → Value

/-- A node record: the field-name → value mapping of a JSON object. -/
abbrev Node := List (String × Value)

/-- The id-indexed map built by `load_nodes_by_id`. -/
abbrev NodeIndex := List (String × Node)

/-- Python `d.get(k)` / `d[k]` on a dict represented as an association list:
the value of the first pair whose key is `k`. -/
def dictGet {α : Type} : List (String × α) → String → Option α
  | [], _ => none
  | (k, v) :: rest, key => if k = key then some v else dictGet rest key

/-- Python `d[k] = v` on a dict: overwrite in place if the key is present
(keeping its position), otherwise append the new pair at the end. -/
def dictSet {α : Type} (d : List (String × α)) (k : String) (v : α) : List (String × α) :=
  if d.any (fun p => p.1 = k) then
    d.map (fun p => if p.1 = k then (k, v) else p)
  else
    d ++ [(k, v)]

/-- Python truthiness of a JSON value: `None`, `False`, `0`, `""`, `[]` and
empty objects are falsy. -/
def pyTruthy : Value → Bool
  | .null => false
  | .bool b => b
  | .int n => decide (n ≠ 0)
  | .str s => decide (s ≠ "")
  | .list xs => !xs.isEmpty
  | .obj kvs => !kvs.isEmpty

/-- Whether a value is Python `None` (`x is None`). -/
def Value.isNull : Value → Bool
  | .null => true
  | _ => false

/-- Whether a value is a JSON array (`isinstance(x, list)`). -/
def Value.isList : Value → Bool
  | .list _ => true
  | _ => false

mutual

/-- Python `repr` of a JSON value (how `str` renders values inside
containers): strings are quoted, `None`/`True`/`False` keep their Python
spelling, arrays and objects recurse. -/
def pyRepr : Value → String
  | .null => "None"
  | .bool b => if b then "True" else "False"
  | .int n => toString n
  | .str s => "\x27" ++ s ++ "\x27"
  | .list xs => "[" ++ pyReprSeq xs ++ "]"
  | .obj kvs => "\x7b" ++ pyReprPairs kvs ++ "\x7d"

/-- Comma-separated `repr`s of the elements of an array. -/
def pyReprSeq : List Value → String
  | [] => ""
  | [x] => pyRepr x
  | x :: y :: rest => pyRepr x ++ ", " ++ pyReprSeq (y :: rest)

/-- Comma-separated `'key': repr(value)` renderings of an object's pairs. -/
def pyReprPairs : List (String × Value) → String
  | [] => ""
  | [(k, v)] => "\x27" ++ k ++ "\x27: " ++ pyRepr v
  | (k, v) :: p :: rest => "\x27" ++ k ++ "\x27: " ++ pyRepr v ++ ", " ++ pyReprPairs (p :: rest)

end

/-- Python `str` of a JSON value: a string is returned as itself, anything
else renders as its `repr`. -/
def pyStr : Value → String
  | .str s => s
  | v => pyRepr v

/-- The first match of `dictGet` is structurally inside the list. -/
theorem sizeOf_dictGet {α : Type} [SizeOf α] :
    ∀ {d : List (String × α)} {k : String} {w : α},
      dictGet d k = some w → sizeOf w < sizeOf d := by
  intro d
  induction d with
  | nil => intro k w h; simp [dictGet] at h
  | cons p rest ih =>
    intro k w h
    obtain ⟨k1, v1⟩ := p
    rw [dictGet] at h
    split at h
    · cases h
      simp
      omega
    · have := ih h
      simp
      omega

mutual

/-- Python `==` on JSON values: structural on scalars and arrays, and
extensional (key-set plus per-key value equality, order-independent) on
objects; `True == 1` and `False == 0` hold as in Python. -/
def pyEq : Value → Value → Bool
  | .null, .null => true
  | .bool a, .bool b => a == b
  | .bool a, .int b => (if a then (1 : Int) else 0) == b
  | .int a, .bool b => a == (if b then (1 : Int) else 0)
  | .int a, .int b => a == b
  | .str a, .str b => a == b
  | .list xs, .list ys => pyEqList xs ys
  | .obj a, .obj b => pyEqSub a b && pyEqSub b a
  | _, _ => false
termination_by v w => sizeOf v + sizeOf w
decreasing_by
  all_goals simp_wf
  all_goals omega

/-- Elementwise Python `==` on two arrays. -/
def pyEqList : List Value → List Value → Bool
  | [], [] => true
  | x :: xs, y :: ys => pyEq x y && pyEqList xs ys
  | _, _ => false
termination_by xs ys => sizeOf xs + sizeOf ys
decreasing_by
  all_goals simp_wf
  all_goals omega

/-- Every pair of the first object has a Python-equal value under the same
key in the second object. -/
def pyEqSub : List (String × Value) → List (String × Value) → Bool
  | [], _ => true
  | (k, v) :: rest, other =>
      (match h : dictGet other k with
       | some w => pyEq v w
       | none => false) && pyEqSub rest other
termination_by a b => sizeOf a + sizeOf b
decreasing_by
  all_goals simp_wf
  all_goals try omega
  all_goals (have hw := sizeOf_dictGet h; omega)

end

example : pyEq (.int 5) (.str "5") = false := by simp [pyEq]
example : pyEq (.obj [("a", .int 1), ("b", .int 2)]) (.obj [("b", .int 2), ("a", .int 1)]) = true := by
  simp [pyEq, pyEqSub, dictGet]

/-- Lines 39-41 of the source: `data.get('graph', [])`, wrapped in a
one-element list when it is not already a list. -/
def graphList (kvs : List (String × Value)) : List Value :=
  match dictGet kvs "graph" with
  | none => []
  | some (.list gs) => gs
  | some g => [g]

/-- Lines 47-49: `graph.get('nodes', [])`, kept only when it is a list. -/
def nodesList (gkvs : List (String × Value)) : List Value :=
  match dictGet gkvs "nodes" with
  | some (.list ns) => ns
  | _ => []

/-- Lines 51-58: the body of the node loop — index a node under `str(nodeid)`
when it is a mapping whose `nodeid` field is truthy. -/
def indexNode (acc : NodeIndex) (nd : Value) : NodeIndex :=
  match nd with
  | .obj nkvs =>
    match dictGet nkvs "nodeid" with
    | some nv => if pyTruthy nv then dictSet acc (pyStr nv) nkvs else acc
    | none => acc
  | _ => acc

/-- Lines 43-58: the graph loop; non-mapping graphs are skipped. -/
def indexGraph (acc : NodeIndex) (g : Value) : NodeIndex :=
  match g with
  | .obj gkvs => (nodesList gkvs).foldl indexNode acc
  | _ => acc

/-- `load_nodes_by_id` (lines 32-60), applied to the already-deserialized
document: build the nodeid → node index.  Python evaluates
`data.get('graph', [])`, which raises `AttributeError` when the document is
not a mapping; that failure is modelled as `none`. -/
def load_nodes_by_id (data : Value) : Option NodeIndex :=
  match data with
  | .obj kvs => some ((graphList kvs).foldl indexGraph [])
  | _ => none

/-- `cast_node` (lines 63-70): stringify the non-null identity fields in
place.  (`str` never raises on these values, so the `except` arm is dead.) -/
def cast_node (x : Node) : Node :=
  ["nodeid", "nodegroup_id", "alias"].foldl (fun acc k =>
    match dictGet acc k with
    | some v => if v.isNull then acc else dictSet acc k (.str (pyStr v))
    | none => acc) x

/-- A record appended to one of the three output lists (lines 90-94,
96-100, 102-106): the raw `name` value (defaulted to the string
`"Unknown"`), and the `NODE_GROUP_ID: `-labelled rendering of
`nodegroup_id` (with `str` applied by the f-string). -/
structure SummaryRecord : Type where
  nodeid : String
  name : Value
  nodegroup_id : String

/-- One entry of a node's differing-fields map (lines 116-119). -/
structure DiffEntry : Type where
  first_file : Value
  second_file : Value

/-- The result dictionary of `compare_nodes` (lines 78-83); the two
dictionaries (`differing_fields` and each node's field map) are association
lists in insertion order. -/
structure CompareResult : Type where
  only_in_first_file : List SummaryRecord
  only_in_second_file : List SummaryRecord
  present_in_both : List SummaryRecord
  differing_fields : List (String × List (String × DiffEntry))

/-- The empty result dictionary (lines 78-83). -/
def emptyResults : CompareResult :=
  { only_in_first_file := [], only_in_second_file := [],
    present_in_both := [], differing_fields := [] }

/-- The summary record built at lines 90-94 (and 96-100, 102-106). -/
def summaryRecord (nodeid : String) (node : Node) : SummaryRecord :=
  { nodeid := nodeid
    name := (dictGet node "name").getD (.str "Unknown")
    nodegroup_id := "NODE_GROUP_ID: " ++
      (match dictGet node "nodegroup_id" with
       | some v => pyStr v
       | none => "Unknown") }

/-- Python truthiness of `d.get(nodeid)`: `None` and the empty dict are
falsy, any non-empty dict is truthy. -/
def truthyOpt : Option Node → Bool
  | none => false
  | some n => !n.isEmpty

/-- Python `==` between the two looked-up nodes (each a dict or `None`). -/
def pyEqOptNode : Option Node → Option Node → Bool
  | some a, some b => pyEq (.obj a) (.obj b)
  | none, none => true
  | _, _ => false

/-- `sorted(set(xs) | set(ys))`: the sorted duplicate-free union. -/
def unionKeys (xs ys : List String) : List String :=
  List.insertionSort (· ≤ ·) (xs ++ ys).dedup

/-- Lines 109-119: the field-by-field differences of two matched nodes,
over the sorted union of their keys; a missing field reads as `None`. -/
def fieldDiffs (na nb : Node) : List (String × DiffEntry) :=
  (unionKeys (na.map Prod.fst) (nb.map Prod.fst)).foldl (fun ds key =>
    let val_a := (dictGet na key).getD .null
    let val_b := (dictGet nb key).getD .null
    if pyEq val_a val_b then ds else ds ++ [(key, ⟨val_a, val_b⟩)]) []

/-- The body of the loop at lines 85-122, for one nodeid.  The two places
where Python raises `AttributeError` on a `None` node — `node_a.get(...)`
while building the present-in-both record, and `node_b.keys()` while
computing `all_keys` — are modelled as `none`; once the accumulator is
`none` it stays `none`. -/
def cmpStep (file_a_nodes file_b_nodes : NodeIndex) (acc : Option CompareResult)
    (nodeid : String) : Option CompareResult :=
  match acc with
  | none => none
  | some results =>
    let node_a := dictGet file_a_nodes nodeid
    let node_b := dictGet file_b_nodes nodeid
    if truthyOpt node_a && !truthyOpt node_b then
      match node_a with
      | some na =>
        some { results with
               only_in_first_file := results.only_in_first_file ++ [summaryRecord nodeid na] }
      | none => none
    else if truthyOpt node_b && !truthyOpt node_a then
      match node_b with
      | some nb =>
        some { results with
               only_in_second_file := results.only_in_second_file ++ [summaryRecord nodeid nb] }
      | none => none
    else
      match node_a with
      | none => none
      | some na =>
        let results1 :=
          { results with
            present_in_both := results.present_in_both ++ [summaryRecord nodeid na] }
        if pyEqOptNode node_a node_b then some results1
        else
          match node_b with
          | none => none
          | some nb =>
            let differences := fieldDiffs na nb
            if differences.isEmpty then some results1
            else some { results1 with
                        differing_fields := results1.differing_fields ++ [(nodeid, differences)] }

/-- `compare_nodes` (lines 73-124): iterate the loop body over the sorted
union of the two key sets, starting from the empty result. -/
def compare_nodes (file_a_nodes file_b_nodes : NodeIndex) : Option CompareResult :=
  let all_nodeids := unionKeys (file_a_nodes.map Prod.fst) (file_b_nodes.map Prod.fst)
  all_nodeids.foldl (cmpStep file_a_nodes file_b_nodes) (some emptyResults)

/-! ### Basic lemmas about the dictionary primitives -/

theorem dictGet_mem {α : Type} {d : List (String × α)} {k : String} {v : α}
    (h : dictGet d k = some v) : (k, v) ∈ d := by
  induction d with
  | nil => simp [dictGet] at h
  | cons p rest ih =>
    obtain ⟨k1, v1⟩ := p
    rw [dictGet] at h
    split at h
    · cases h
      simp_all
    · simp [ih h]

theorem dictGet_isSome_of_mem_keys {α : Type} {d : List (String × α)} {k : String}
    (h : k ∈ d.map Prod.fst) : (dictGet d k).isSome := by
  induction d with
  | nil => simp at h
  | cons p rest ih =>
    obtain ⟨k1, v1⟩ := p
    rw [dictGet]
    split
    · simp
    · simp at h
      rcases h with h | h
      · simp_all
      · exact ih (by simpa using h)

theorem mem_keys_of_dictGet {α : Type} {d : List (String × α)} {k : String} {v : α}
    (h : dictGet d k = some v) : k ∈ d.map Prod.fst := by
  have := dictGet_mem h
  exact List.mem_map.mpr ⟨(k, v), this, rfl⟩

theorem truthyOpt_eq_some {o : Option Node} (h : truthyOpt o = true) :
    ∃ n, o = some n ∧ n.isEmpty = false := by
  cases o with
  | none => simp [truthyOpt] at h
  | some n => exact ⟨n, rfl, by simpa [truthyOpt] using h⟩

/-! ### The sorted duplicate-free key union -/

theorem mem_unionKeys {x : String} {xs ys : List String} :
    x ∈ unionKeys xs ys ↔ x ∈ xs ∨ x ∈ ys := by
  unfold unionKeys
  rw [(List.perm_insertionSort _ _).mem_iff, List.mem_dedup, List.mem_append]

theorem nodup_unionKeys (xs ys : List String) : (unionKeys xs ys).Nodup :=
  (List.perm_insertionSort _ _).nodup_iff.mpr (List.nodup_dedup _)

theorem sorted_unionKeys (xs ys : List String) :
    (unionKeys xs ys).Sorted (· ≤ ·) :=
  List.sorted_insertionSort _ _

theorem sorted_lt_unionKeys (xs ys : List String) :
    (unionKeys xs ys).Sorted (· < ·) := by
  have hs := sorted_unionKeys xs ys
  have hn := nodup_unionKeys xs ys
  exact (List.Pairwise.and hs hn).imp (fun h => lt_of_le_of_ne h.1 h.2)

theorem unionKeys_comm (xs ys : List String) : unionKeys xs ys = unionKeys ys xs := by
  apply List.eq_of_perm_of_sorted _ (sorted_unionKeys xs ys) (sorted_unionKeys ys xs)
  refine ((List.perm_insertionSort _ _).trans ?_).trans (List.perm_insertionSort _ _).symm
  rw [List.perm_ext_iff_of_nodup (List.nodup_dedup _) (List.nodup_dedup _)]
  intro a
  simp [List.mem_dedup, or_comm]

/-! ### A closed-form characterisation of one `compare_nodes` loop step -/

/-- The condition of the first branch (line 89): present and truthy in the
first index, absent or falsy in the second. -/
def onlyFirstCond (a b : NodeIndex) (id : String) : Bool :=
  truthyOpt (dictGet a id) && !truthyOpt (dictGet b id)

/-- The condition of the second branch (line 95). -/
def onlySecondCond (a b : NodeIndex) (id : String) : Bool :=
  truthyOpt (dictGet b id) && !truthyOpt (dictGet a id)

/-- The record the first branch contributes for `id`, if any. -/
def specOnlyFirst (a b : NodeIndex) (id : String) : Option SummaryRecord :=
  if onlyFirstCond a b id then (dictGet a id).map (summaryRecord id) else none

/-- The record the second branch contributes for `id`, if any. -/
def specOnlySecond (a b : NodeIndex) (id : String) : Option SummaryRecord :=
  if onlySecondCond a b id then (dictGet b id).map (summaryRecord id) else none

/-- The record the `else` branch contributes to `present_in_both` for `id`,
if any (built from the first index's copy). -/
def specBoth (a b : NodeIndex) (id : String) : Option SummaryRecord :=
  if !onlyFirstCond a b id && !onlySecondCond a b id then
    (dictGet a id).map (summaryRecord id)
  else none

/-- The `differing_fields` entry contributed for `id`, if any. -/
def specDiff (a b : NodeIndex) (id : String) :
    Option (String × List (String × DiffEntry)) :=
  if !onlyFirstCond a b id && !onlySecondCond a b id then
    match dictGet a id, dictGet b id with
    | some na, some nb =>
      if pyEq (.obj na) (.obj nb) then none
      else if (fieldDiffs na nb).isEmpty then none
      else some (id, fieldDiffs na nb)
    | _, _ => none
  else none

/-- Whether the loop body survives `id` without raising: in the `else`
branch the first node must be a dict, and when the two records are unequal
the second must be a dict as well. -/
def stepOk (a b : NodeIndex) (id : String) : Bool :=
  if onlyFirstCond a b id || onlySecondCond a b id then true
  else
    match dictGet a id with
    | none => false
    | some na =>
      if pyEqOptNode (some na) (dictGet b id) then true
      else (dictGet b id).isSome

theorem cmpStep_some (a b : NodeIndex) (r : CompareResult) (id : String) :
    cmpStep a b (some r) id =
      if stepOk a b id then
        some { only_in_first_file := r.only_in_first_file ++ (specOnlyFirst a b id).toList
               only_in_second_file := r.only_in_second_file ++ (specOnlySecond a b id).toList
               present_in_both := r.present_in_both ++ (specBoth a b id).toList
               differing_fields := r.differing_fields ++ (specDiff a b id).toList }
      else none := by
  cases ha : dictGet a id with
  | none =>
    cases hb : dictGet b id with
    | none =>
      simp [cmpStep, stepOk, specOnlyFirst, specOnlySecond, specBoth, specDiff,
        onlyFirstCond, onlySecondCond, truthyOpt, ha, hb]
    | some nb =>
      by_cases hnb : nb.isEmpty <;>
        simp [cmpStep, stepOk, specOnlyFirst, specOnlySecond, specBoth, specDiff,
          onlyFirstCond, onlySecondCond, truthyOpt, pyEqOptNode, ha, hb, hnb]
  | some na =>
    cases hb : dictGet b id with
    | none =>
      by_cases hna : na.isEmpty <;>
        simp [cmpStep, stepOk, specOnlyFirst, specOnlySecond, specBoth, specDiff,
          onlyFirstCond, onlySecondCond, truthyOpt, pyEqOptNode, ha, hb, hna]
    | some nb =>
      by_cases hna : na.isEmpty <;> by_cases hnb : nb.isEmpty <;>
        by_cases heq : pyEq (.obj na) (.obj nb) <;>
        by_cases hemp : (fieldDiffs na nb).isEmpty <;>
        simp [cmpStep, stepOk, specOnlyFirst, specOnlySecond, specBoth, specDiff,
          onlyFirstCond, onlySecondCond, truthyOpt, pyEqOptNode, ha, hb, hna, hnb, heq, hemp]

theorem foldl_cmpStep_none (a b : NodeIndex) (ids : List String) :
    ids.foldl (cmpStep a b) none = none := by
  induction ids with
  | nil => rfl
  | cons id ids ih => simpa [cmpStep] using ih

theorem foldl_cmpStep_char (a b : NodeIndex) :
    ∀ (ids : List String) (r : CompareResult),
      ids.foldl (cmpStep a b) (some r) =
        if ids.all (stepOk a b) then
          some { only_in_first_file :=
                   r.only_in_first_file ++ ids.filterMap (specOnlyFirst a b)
                 only_in_second_file :=
                   r.only_in_second_file ++ ids.filterMap (specOnlySecond a b)
                 present_in_both :=
                   r.present_in_both ++ ids.filterMap (specBoth a b)
                 differing_fields :=
                   r.differing_fields ++ ids.filterMap (specDiff a b) }
        else none := by
  intro ids
  induction ids with
  | nil => intro r; simp
  | cons id ids ih =>
    intro r
    rw [List.foldl_cons, cmpStep_some]
    by_cases hok : stepOk a b id
    · rw [if_pos hok, ih]
      by_cases hall : ids.all (stepOk a b)
      · have : (id :: ids).all (stepOk a b) = true := by simp [hok, hall]
        rw [if_pos hall, if_pos this]
        have tl : ∀ {α β : Type} (f : α → Option β) (x : α) (l : List α),
            (f x).toList ++ l.filterMap f = (x :: l).filterMap f := by
          intro α β f x l
          cases hf : f x <;> simp [List.filterMap_cons, hf]
        simp only [← tl (specOnlyFirst a b) id ids, ← tl (specOnlySecond a b) id ids,
          ← tl (specBoth a b) id ids, ← tl (specDiff a b) id ids, List.append_assoc]
      · have : (id :: ids).all (stepOk a b) = false := by simp [hall]
        rw [if_neg (by simp [hall]), if_neg (by simp [this])]
    · rw [if_neg hok, foldl_cmpStep_none]
      rw [if_neg (by simp [hok])]

/-- `compare_nodes` in closed form: it succeeds exactly when every nodeid
survives its loop step, and then each output list collects the per-nodeid
contributions over the sorted key union. -/
theorem compare_nodes_char (a b : NodeIndex) :
    compare_nodes a b =
      (if (unionKeys (a.map Prod.fst) (b.map Prod.fst)).all (stepOk a b) then
        some { only_in_first_file :=
                 (unionKeys (a.map Prod.fst) (b.map Prod.fst)).filterMap (specOnlyFirst a b)
               only_in_second_file :=
                 (unionKeys (a.map Prod.fst) (b.map Prod.fst)).filterMap (specOnlySecond a b)
               present_in_both :=
                 (unionKeys (a.map Prod.fst) (b.map Prod.fst)).filterMap (specBoth a b)
               differing_fields :=
                 (unionKeys (a.map Prod.fst) (b.map Prod.fst)).filterMap (specDiff a b) }
      else none) := by
  rw [compare_nodes]
  rw [foldl_cmpStep_char]
  simp [emptyResults]

/-! ### Relating each contribution to its branch condition -/

theorem specOnlyFirst_nodeid {a b : NodeIndex} {id : String} {rec : SummaryRecord}
    (h : specOnlyFirst a b id = some rec) : rec.nodeid = id := by
  unfold specOnlyFirst at h
  split at h
  · cases hg : dictGet a id <;> rw [hg] at h <;> simp at h
    rw [← h]
    rfl
  · simp at h

theorem specOnlySecond_nodeid {a b : NodeIndex} {id : String} {rec : SummaryRecord}
    (h : specOnlySecond a b id = some rec) : rec.nodeid = id := by
  unfold specOnlySecond at h
  split at h
  · cases hg : dictGet b id <;> rw [hg] at h <;> simp at h
    rw [← h]
    rfl
  · simp at h

theorem specBoth_nodeid {a b : NodeIndex} {id : String} {rec : SummaryRecord}
    (h : specBoth a b id = some rec) : rec.nodeid = id := by
  unfold specBoth at h
  split at h
  · cases hg : dictGet a id <;> rw [hg] at h <;> simp at h
    rw [← h]
    rfl
  · simp at h

theorem specDiff_fst {a b : NodeIndex} {id : String} {e : String × List (String × DiffEntry)}
    (h : specDiff a b id = some e) : e.1 = id := by
  unfold specDiff at h
  split at h
  · split at h
    · split at h
      · simp at h
      · split at h
        · simp at h
        · cases h
          rfl
    · simp at h
  · simp at h

theorem specOnlyFirst_isSome (a b : NodeIndex) (id : String) :
    (specOnlyFirst a b id).isSome = onlyFirstCond a b id := by
  unfold specOnlyFirst
  by_cases h : onlyFirstCond a b id
  · have ht : truthyOpt (dictGet a id) = true := by
      rw [onlyFirstCond, Bool.and_eq_true] at h
      exact h.1
    obtain ⟨na, hna, -⟩ := truthyOpt_eq_some ht
    simp [h, hna]
  · simp [h]

theorem specOnlySecond_isSome (a b : NodeIndex) (id : String) :
    (specOnlySecond a b id).isSome = onlySecondCond a b id := by
  unfold specOnlySecond
  by_cases h : onlySecondCond a b id
  · have ht : truthyOpt (dictGet b id) = true := by
      rw [onlySecondCond, Bool.and_eq_true] at h
      exact h.1
    obtain ⟨nb, hnb, -⟩ := truthyOpt_eq_some ht
    simp [h, hnb]
  · simp [h]

theorem specBoth_isSome (a b : NodeIndex) (id : String) :
    (specBoth a b id).isSome =
      (!onlyFirstCond a b id && !onlySecondCond a b id && (dictGet a id).isSome) := by
  unfold specBoth
  by_cases h : (!onlyFirstCond a b id && !onlySecondCond a b id) = true
  · cases hg : dictGet a id <;> simp [h, hg]
  · simp [h]

/-- A generic bridge: mapping a key-recovering function over a `filterMap`
yields the `filter` by definedness. -/
theorem map_filterMap_eq_filter {α β : Type} (f : α → Option β) (g : β → α)
    (hf : ∀ x y, f x = some y → g y = x) :
    ∀ l : List α, (l.filterMap f).map g = l.filter (fun x => (f x).isSome) := by
  intro l
  induction l with
  | nil => rfl
  | cons x xs ih =>
    cases hfx : f x with
    | none => simp [List.filterMap_cons, hfx, List.filter_cons, ih]
    | some y => simp [List.filterMap_cons, hfx, List.filter_cons, hf x y hfx, ih]

/-- If every nodeid of the union passes `stepOk`, the three branch
conditions cover every nodeid (in the `else` branch the first lookup is
forced to be a dict). -/
theorem stepOk_cases {a b : NodeIndex} {id : String} (h : stepOk a b id = true) :
    onlyFirstCond a b id = true ∨ onlySecondCond a b id = true ∨
      ((!onlyFirstCond a b id && !onlySecondCond a b id) = true ∧
        (dictGet a id).isSome = true ∧ (dictGet b id).isSome = true) := by
  by_cases h1 : onlyFirstCond a b id
  · exact Or.inl h1
  · by_cases h2 : onlySecondCond a b id
    · exact Or.inr (Or.inl h2)
    · refine Or.inr (Or.inr ⟨by simp [h1, h2], ?_⟩)
      rw [stepOk, if_neg (by simp [h1, h2])] at h
      cases ha : dictGet a id with
      | none => rw [ha] at h; simp at h
      | some na =>
        rw [ha] at h
        refine ⟨by simp [ha], ?_⟩
        by_cases heq : pyEqOptNode (some na) (dictGet b id) = true
        · cases hb : dictGet b id with
          | none => rw [hb] at heq; simp [pyEqOptNode] at heq
          | some nb => simp [hb]
        · simp only [heq, if_false] at h
          exact h

/-- `sorted(set(file_a_nodes.keys()) | set(file_b_nodes.keys()))` (lines
76 and 85). -/
def allNodeids (a b : NodeIndex) : List String :=
  unionKeys (a.map Prod.fst) (b.map Prod.fst)

/-- The closed form of a successful `compare_nodes` run. -/
def specResult (a b : NodeIndex) : CompareResult :=
  { only_in_first_file := (allNodeids a b).filterMap (specOnlyFirst a b)
    only_in_second_file := (allNodeids a b).filterMap (specOnlySecond a b)
    present_in_both := (allNodeids a b).filterMap (specBoth a b)
    differing_fields := (allNodeids a b).filterMap (specDiff a b) }

theorem compare_nodes_spec (a b : NodeIndex) :
    compare_nodes a b =
      if (allNodeids a b).all (stepOk a b) then some (specResult a b) else none := by
  rw [compare_nodes_char]
  rfl

theorem compare_eq_some_iff {a b : NodeIndex} {r : CompareResult} :
    compare_nodes a b = some r ↔
      (allNodeids a b).all (stepOk a b) = true ∧ r = specResult a b := by
  rw [compare_nodes_spec]
  constructor
  · intro h
    split at h
    · exact ⟨by assumption, (Option.some.inj h).symm⟩
    · cases h
  · rintro ⟨hall, rfl⟩
    rw [if_pos hall]

theorem specResult_first_nodeids (a b : NodeIndex) :
    (specResult a b).only_in_first_file.map SummaryRecord.nodeid =
      (allNodeids a b).filter (onlyFirstCond a b) := by
  show ((allNodeids a b).filterMap (specOnlyFirst a b)).map SummaryRecord.nodeid = _
  rw [map_filterMap_eq_filter _ _ (fun x y h => specOnlyFirst_nodeid h)]
  congr 1
  funext id
  rw [specOnlyFirst_isSome]

theorem specResult_second_nodeids (a b : NodeIndex) :
    (specResult a b).only_in_second_file.map SummaryRecord.nodeid =
      (allNodeids a b).filter (onlySecondCond a b) := by
  show ((allNodeids a b).filterMap (specOnlySecond a b)).map SummaryRecord.nodeid = _
  rw [map_filterMap_eq_filter _ _ (fun x y h => specOnlySecond_nodeid h)]
  congr 1
  funext id
  rw [specOnlySecond_isSome]

theorem specResult_both_nodeids (a b : NodeIndex) :
    (specResult a b).present_in_both.map SummaryRecord.nodeid =
      (allNodeids a b).filter
        (fun id => !onlyFirstCond a b id && !onlySecondCond a b id && (dictGet a id).isSome) := by
  show ((allNodeids a b).filterMap (specBoth a b)).map SummaryRecord.nodeid = _
  rw [map_filterMap_eq_filter _ _ (fun x y h => specBoth_nodeid h)]
  congr 1
  funext id
  rw [specBoth_isSome]

theorem specResult_diff_nodeids (a b : NodeIndex) :
    (specResult a b).differing_fields.map Prod.fst =
      (allNodeids a b).filter (fun id => (specDiff a b id).isSome) := by
  show ((allNodeids a b).filterMap (specDiff a b)).map Prod.fst = _
  rw [map_filterMap_eq_filter _ _ (fun x y h => specDiff_fst h)]

/-- C1 — For every pair of node indexes, the nodeids appearing in the diff
result's `only_in_first_file`, `only_in_second_file` and `present_in_both`
lists are pairwise disjoint and duplicate-free (their concatenation has no
duplicate), and their union is exactly the union of the key sets of the two
input indexes. -/
theorem compare_nodes_nodeid_partition (a b : NodeIndex) (r : CompareResult)
    (h : compare_nodes a b = some r) :
    (r.only_in_first_file.map SummaryRecord.nodeid ++
       r.only_in_second_file.map SummaryRecord.nodeid ++
       r.present_in_both.map SummaryRecord.nodeid).Nodup ∧
    (r.only_in_first_file.map SummaryRecord.nodeid ++
       r.only_in_second_file.map SummaryRecord.nodeid ++
       r.present_in_both.map SummaryRecord.nodeid).toFinset =
      (a.map Prod.fst).toFinset ∪ (b.map Prod.fst).toFinset := by
  obtain ⟨hall, rfl⟩ := compare_eq_some_iff.mp h
  rw [specResult_first_nodeids, specResult_second_nodeids, specResult_both_nodeids]
  have hnodup := nodup_unionKeys (a.map Prod.fst) (b.map Prod.fst)
  constructor
  · rw [List.append_assoc, List.nodup_append, List.nodup_append]
    refine ⟨hnodup.filter _, ⟨hnodup.filter _, hnodup.filter _, ?_⟩, ?_⟩
    · intro x hx1 hx2
      rw [List.mem_filter] at hx1 hx2
      rw [Bool.and_eq_true] at hx2
      simp [hx1.2] at hx2
    · intro x hx1 hx2
      rw [List.mem_filter] at hx1
      rw [List.mem_append, List.mem_filter, List.mem_filter] at hx2
      rcases hx2 with hx2 | hx2
      · rw [onlyFirstCond, Bool.and_eq_true] at hx1
        rw [onlySecondCond, Bool.and_eq_true] at hx2
        have := hx1.2.1
        have := hx2.2.1
        simp_all
      · rw [Bool.and_eq_true, Bool.and_eq_true] at hx2
        simp [hx1.2] at hx2
  · ext x
    simp only [List.mem_toFinset, List.mem_append, List.mem_filter, Finset.mem_union]
    constructor
    · rintro ((⟨hx, -⟩ | ⟨hx, -⟩) | ⟨hx, -⟩) <;>
        simpa using (mem_unionKeys.mp (show x ∈ unionKeys (a.map Prod.fst) (b.map Prod.fst) from hx))
    · intro hx
      have hxu : x ∈ allNodeids a b := by
        rw [allNodeids, mem_unionKeys]
        simpa using hx
      have hok : stepOk a b x = true := by
        rw [List.all_eq_true] at hall
        exact hall x hxu
      rcases stepOk_cases hok with h1 | h2 | ⟨h3, hsa, -⟩
      · exact Or.inl (Or.inl ⟨hxu, h1⟩)
      · exact Or.inl (Or.inr ⟨hxu, h2⟩)
      · exact Or.inr ⟨hxu, by simp_all⟩

/-- A concrete index holding one node with nodeid `"1"`. -/
def exA : NodeIndex := [("1", [("nodeid", Value.str "1")])]

/-- A concrete empty index. -/
def exB : NodeIndex := []

/-- Witness for C1: the partition property evaluated on two concrete
one-node indexes. -/
theorem compare_nodes_nodeid_partition_witness :
    ((((compare_nodes exA exB).getD emptyResults).only_in_first_file.map SummaryRecord.nodeid ++
        ((compare_nodes exA exB).getD emptyResults).only_in_second_file.map SummaryRecord.nodeid ++
        ((compare_nodes exA exB).getD emptyResults).present_in_both.map SummaryRecord.nodeid).Nodup ∧
      (((compare_nodes exA exB).getD emptyResults).only_in_first_file.map SummaryRecord.nodeid ++
        ((compare_nodes exA exB).getD emptyResults).only_in_second_file.map SummaryRecord.nodeid ++
        ((compare_nodes exA exB).getD emptyResults).present_in_both.map SummaryRecord.nodeid).toFinset =
        (exA.map Prod.fst).toFinset ∪ (exB.map Prod.fst).toFinset) :=
  compare_nodes_nodeid_partition exA exB ((compare_nodes exA exB).getD emptyResults) (by rfl)

/-- C4 — The differ is deterministic (in this embedding it is a function of
its two index arguments, so identical inputs give identical output by
definition), and each of the three output lists, as well as the keys of
`differing_fields`, is strictly ascending in nodeid under the lexicographic
string order. -/
theorem compare_nodes_sorted (a b : NodeIndex) (r : CompareResult)
    (h : compare_nodes a b = some r) :
    (r.only_in_first_file.map SummaryRecord.nodeid).Sorted (· < ·) ∧
    (r.only_in_second_file.map SummaryRecord.nodeid).Sorted (· < ·) ∧
    (r.present_in_both.map SummaryRecord.nodeid).Sorted (· < ·) ∧
    (r.differing_fields.map Prod.fst).Sorted (· < ·) := by
  obtain ⟨-, rfl⟩ := compare_eq_some_iff.mp h
  rw [specResult_first_nodeids, specResult_second_nodeids, specResult_both_nodeids,
    specResult_diff_nodeids]
  have hs := sorted_lt_unionKeys (a.map Prod.fst) (b.map Prod.fst)
  exact ⟨hs.filter _, hs.filter _, hs.filter _, hs.filter _⟩

/-- Witness for C4 at the concrete one-node indexes. -/
theorem compare_nodes_sorted_witness :
    ((((compare_nodes exA exB).getD emptyResults).only_in_first_file.map SummaryRecord.nodeid).Sorted (· < ·) ∧
      (((compare_nodes exA exB).getD emptyResults).only_in_second_file.map SummaryRecord.nodeid).Sorted (· < ·) ∧
      (((compare_nodes exA exB).getD emptyResults).present_in_both.map SummaryRecord.nodeid).Sorted (· < ·) ∧
      (((compare_nodes exA exB).getD emptyResults).differing_fields.map Prod.fst).Sorted (· < ·)) :=
  compare_nodes_sorted exA exB ((compare_nodes exA exB).getD emptyResults) (by rfl)

/-! ### Extraction: `load_nodes_by_id` in stream form -/

/-- The key/record pair a node entry contributes to the index, if any: the
entry must be a mapping whose `nodeid` field is present and truthy, and the
key is `str(nodeid)`. -/
def nodeQual (nd : Value) : Option (String × Node) :=
  match nd with
  | .obj nkvs =>
    match dictGet nkvs "nodeid" with
    | some nv => if pyTruthy nv then some (pyStr nv, nkvs) else none
    | none => none
  | _ => none

/-- The qualifying key/record pairs of one graph entry, in document order. -/
def qualifyingNodes (g : Value) : List (String × Node) :=
  match g with
  | .obj gkvs => (nodesList gkvs).filterMap nodeQual
  | _ => []

/-- All qualifying key/record pairs of a document, in document order. -/
def nodeStream (kvs : List (String × Value)) : List (String × Node) :=
  (graphList kvs).foldr (fun g acc => qualifyingNodes g ++ acc) []

/-- Folding `dictSet` over a key/record pair. -/
def dictSetP (d : NodeIndex) (p : String × Node) : NodeIndex :=
  dictSet d p.1 p.2

theorem indexNode_eq (acc : NodeIndex) (nd : Value) :
    indexNode acc nd =
      match nodeQual nd with
      | some p => dictSetP acc p
      | none => acc := by
  unfold indexNode nodeQual
  cases nd <;> simp only [dictSetP]
  rename_i nkvs
  cases dictGet nkvs "nodeid" with
  | none => rfl
  | some nv => by_cases ht : pyTruthy nv <;> simp [ht]

theorem foldl_indexNode_eq (ns : List Value) :
    ∀ acc : NodeIndex, ns.foldl indexNode acc = (ns.filterMap nodeQual).foldl dictSetP acc := by
  induction ns with
  | nil => intro acc; rfl
  | cons nd ns ih =>
    intro acc
    rw [List.foldl_cons, List.filterMap_cons, indexNode_eq]
    cases hq : nodeQual nd with
    | none =>
      simp only [hq]
      exact ih acc
    | some p =>
      simp only [hq]
      rw [List.foldl_cons]
      exact ih (dictSetP acc p)

theorem foldl_indexGraph_eq (gs : List Value) :
    ∀ acc : NodeIndex,
      gs.foldl indexGraph acc =
        (gs.foldr (fun g l => qualifyingNodes g ++ l) []).foldl dictSetP acc := by
  induction gs with
  | nil => intro acc; rfl
  | cons g gs ih =>
    intro acc
    rw [List.foldl_cons, List.foldr_cons, List.foldl_append, ← ih]
    congr 1
    unfold indexGraph qualifyingNodes
    cases g <;> simp [foldl_indexNode_eq]

theorem load_nodes_by_id_stream (kvs : List (String × Value)) :
    load_nodes_by_id (.obj kvs) = some ((nodeStream kvs).foldl dictSetP []) := by
  rw [load_nodes_by_id, nodeStream, foldl_indexGraph_eq]

theorem dictGet_map_ne {α : Type} (rest : List (String × α)) (k k2 : String) (v : α)
    (hne : ¬k = k2) :
    dictGet (rest.map (fun p => if p.1 = k then (k, v) else p)) k2 = dictGet rest k2 := by
  induction rest with
  | nil => rfl
  | cons p l ih =>
    obtain ⟨kp, vp⟩ := p
    by_cases hp : kp = k
    · subst hp
      simp only [List.map_cons, if_pos rfl]
      rw [dictGet, dictGet, if_neg hne, if_neg (by simpa using hne)]
      exact ih
    · simp only [List.map_cons, if_neg hp]
      rw [dictGet, dictGet]
      split
      · rfl
      · exact ih

theorem dictSet_cons_ne {α : Type} (rest : List (String × α)) (k1 k : String) (v1 v : α)
    (h1 : ¬k1 = k) :
    dictSet ((k1, v1) :: rest) k v = (k1, v1) :: dictSet rest k v := by
  by_cases hany : rest.any (fun p => p.1 = k)
  · rw [dictSet, if_pos (by simp [hany]), dictSet, if_pos hany]
    simp [h1]
  · rw [dictSet, if_neg (by simp [h1]; simpa using hany), dictSet, if_neg (by simpa using hany)]
    rfl

theorem dictGet_dictSet {α : Type} (d : List (String × α)) (k k2 : String) (v : α) :
    dictGet (dictSet d k v) k2 = if k = k2 then some v else dictGet d k2 := by
  induction d with
  | nil =>
    rw [dictSet, if_neg (by simp)]
    simp [dictGet]
  | cons p rest ih =>
    obtain ⟨k1, v1⟩ := p
    by_cases h1 : k1 = k
    · subst h1
      rw [dictSet, if_pos (by simp)]
      have hh : ((k1, v1) :: rest).map (fun p => if p.1 = k1 then (k1, v) else p)
          = (k1, v) :: rest.map (fun p => if p.1 = k1 then (k1, v) else p) := by
        simp
      rw [hh, dictGet]
      by_cases h2 : k1 = k2
      · rw [if_pos h2, if_pos h2]
      · rw [if_neg h2, if_neg h2, dictGet, if_neg h2, dictGet_map_ne rest k1 k2 v h2]
    · rw [dictSet_cons_ne rest k1 k v1 v h1, dictGet]
      by_cases h2 : k1 = k2
      · subst h2
        rw [if_pos rfl, if_neg (fun he => h1 he.symm), dictGet, if_pos rfl]
      · rw [if_neg h2, ih, dictGet, if_neg h2]

theorem dictGet_append {α : Type} (xs ys : List (String × α)) (k : String) :
    dictGet (xs ++ ys) k =
      match dictGet xs k with
      | some v => some v
      | none => dictGet ys k := by
  induction xs with
  | nil => rfl
  | cons p rest ih =>
    obtain ⟨k1, v1⟩ := p
    rw [List.cons_append, dictGet, dictGet]
    split
    · rfl
    · exact ih

theorem dictGet_foldl_dictSetP (l : List (String × Node)) :
    ∀ (acc : NodeIndex) (k : String),
      dictGet (l.foldl dictSetP acc) k =
        match dictGet l.reverse k with
        | some v => some v
        | none => dictGet acc k := by
  induction l with
  | nil => intro acc k; rfl
  | cons p rest ih =>
    intro acc k
    rw [List.foldl_cons, ih, List.reverse_cons, dictGet_append]
    cases hrev : dictGet rest.reverse k with
    | some v => rfl
    | none =>
      obtain ⟨kp, vp⟩ := p
      show dictGet (dictSet acc kp vp) k = _
      rw [dictGet_dictSet]
      by_cases hk : kp = k
      · simp [dictGet, hk]
      · simp [dictGet, hk]

/-- C3 — Extraction indexes exactly the qualifying nodes: looking up any key
in the built index returns the value of the last key/record pair of the
document's qualifying-node stream with that key (so a node is indexed iff it
is a mapping whose `nodeid` is present and truthy, the key is `str(nodeid)`,
and a later node overwrites an earlier one with the same key). -/
theorem load_nodes_by_id_last_wins (kvs : List (String × Value)) (k : String) :
    ∃ idx, load_nodes_by_id (.obj kvs) = some idx ∧
      dictGet idx k = dictGet (nodeStream kvs).reverse k := by
  refine ⟨_, load_nodes_by_id_stream kvs, ?_⟩
  rw [dictGet_foldl_dictSetP]
  cases dictGet (nodeStream kvs).reverse k <;> rfl

/-- Counterexample to C6: a deserialized document that is a JSON array (a
perfectly possible top-level value) makes `data.get('graph', [])` raise
`AttributeError`, i.e. extraction fails rather than returning an index. -/
theorem load_nodes_by_id_crashes_on_array : load_nodes_by_id (.list []) = none := rfl

/-- C6 (amended) — For every document that is a mapping, extraction never
fails: every off-shape part below the top level (wrong-typed `graph`,
`nodes`, or node entry) is silently skipped and an index is returned. -/
theorem load_nodes_by_id_total_on_mapping (kvs : List (String × Value)) :
    (load_nodes_by_id (.obj kvs)).isSome := rfl

/-- C7 — A document whose `graph` entry is a non-array value `g` extracts
exactly like one whose `graph` entry is the one-element array `[g]`; and a
document with no `graph` entry yields the empty index. -/
theorem load_nodes_by_id_graph_wrap :
    (∀ (kvs kvs2 : List (String × Value)) (g : Value),
        dictGet kvs "graph" = some g → g.isList = false →
        dictGet kvs2 "graph" = some (.list [g]) →
        load_nodes_by_id (.obj kvs) = load_nodes_by_id (.obj kvs2)) ∧
    (∀ kvs : List (String × Value),
        dictGet kvs "graph" = none → load_nodes_by_id (.obj kvs) = some []) := by
  constructor
  · intro kvs kvs2 g hg hnl hg2
    have h1 : graphList kvs = [g] := by
      unfold graphList
      rw [hg]
      cases g <;> simp_all [Value.isList]
    have h2 : graphList kvs2 = [g] := by
      unfold graphList
      rw [hg2]
    rw [load_nodes_by_id_stream, load_nodes_by_id_stream, nodeStream, nodeStream, h1, h2]
  · intro kvs hg
    have h1 : graphList kvs = [] := by
      unfold graphList
      rw [hg]
    rw [load_nodes_by_id_stream, nodeStream, h1]
    rfl

/-- Witness for C7: a concrete single-graph document against its wrapped
form, and a concrete graph-less document. -/
theorem load_nodes_by_id_graph_wrap_witness :
    load_nodes_by_id (.obj [("graph", .obj [("nodes", .list [.obj [("nodeid", Value.str "7")]])])]) =
      load_nodes_by_id (.obj [("graph", .list [.obj [("nodes", .list [.obj [("nodeid", Value.str "7")]])]])]) ∧
    load_nodes_by_id (.obj [("version", Value.int 1)]) = some [] :=
  ⟨load_nodes_by_id_graph_wrap.1 _ _ _ rfl rfl rfl,
   load_nodes_by_id_graph_wrap.2 _ rfl⟩

theorem dictGet_eq_none_of_not_mem {α : Type} {d : List (String × α)} {k : String}
    (h : k ∉ d.map Prod.fst) : dictGet d k = none := by
  cases hg : dictGet d k with
  | none => rfl
  | some v => exact absurd (mem_keys_of_dictGet hg) h

/-- C10 — The differ classifies by Python truthiness, not key membership:
a nodeid mapped to an empty record on one side and absent on the other
falls through to the `else` (present-in-both) branch, where the comparison
against the absent side raises (`none` here); and the differ returns a
result whenever every record in both indexes is a non-empty mapping. -/
theorem compare_nodes_truthiness_classification :
    (∀ (a b : NodeIndex) (id : String),
        dictGet a id = some [] → dictGet b id = none → compare_nodes a b = none) ∧
    (∀ a b : NodeIndex,
        (∀ p ∈ a, p.2.isEmpty = false) → (∀ p ∈ b, p.2.isEmpty = false) →
        (compare_nodes a b).isSome) := by
  constructor
  · intro a b id ha hb
    have hmem : id ∈ allNodeids a b := by
      rw [allNodeids, mem_unionKeys]
      exact Or.inl (mem_keys_of_dictGet ha)
    have hok : stepOk a b id = false := by
      rw [stepOk, if_neg]
      · rw [ha, hb]
        simp [pyEqOptNode]
      · rw [onlyFirstCond, onlySecondCond, ha, hb]
        simp [truthyOpt]
    rw [compare_nodes_spec, if_neg]
    intro hall
    rw [List.all_eq_true] at hall
    rw [hall id hmem] at hok
    cases hok
  · intro a b hna hnb
    rw [compare_nodes_spec, if_pos]
    · rfl
    · rw [List.all_eq_true]
      intro id hid
      have htruA : (dictGet a id).isSome = true → truthyOpt (dictGet a id) = true := by
        intro hs
        obtain ⟨na, hga⟩ := Option.isSome_iff_exists.mp hs
        rw [hga, truthyOpt, hna (id, na) (dictGet_mem hga)]
        rfl
      have htruB : (dictGet b id).isSome = true → truthyOpt (dictGet b id) = true := by
        intro hs
        obtain ⟨nb, hgb⟩ := Option.isSome_iff_exists.mp hs
        rw [hgb, truthyOpt, hnb (id, nb) (dictGet_mem hgb)]
        rfl
      by_cases h1 : onlyFirstCond a b id
      · rw [stepOk, if_pos (by simp [h1])]
      · by_cases h2 : onlySecondCond a b id
        · rw [stepOk, if_pos (by simp [h2])]
        · rw [stepOk, if_neg (by simp [h1, h2])]
          have hmemA : id ∈ a.map Prod.fst := by
            rcases (mem_unionKeys.mp hid) with hA | hB
            · exact hA
            · by_contra hnotA
              have hgan : dictGet a id = none := dictGet_eq_none_of_not_mem hnotA
              have htb : truthyOpt (dictGet b id) = true :=
                htruB (dictGet_isSome_of_mem_keys hB)
              have : onlySecondCond a b id = true := by
                rw [onlySecondCond, htb, hgan]
                rfl
              exact h2 this
          obtain ⟨na, hga⟩ := Option.isSome_iff_exists.mp (dictGet_isSome_of_mem_keys hmemA)
          rw [hga]
          show (if pyEqOptNode (some na) (dictGet b id) = true then true
                else (dictGet b id).isSome) = true
          split
          · rfl
          · rename_i hne
            have hta : truthyOpt (dictGet a id) = true := htruA (by simp [hga])
            have htb : truthyOpt (dictGet b id) = true := by
              by_contra htbf
              have : onlyFirstCond a b id = true := by
                rw [onlyFirstCond, hta]
                simp_all
              exact h1 this
            obtain ⟨nb, hgb⟩ := truthyOpt_eq_some htb
            simp [hgb.1]

/-- Witness for C10: one empty-vs-absent nodeid makes the differ fail, and
indexes of non-empty records always produce a result. -/
theorem compare_nodes_truthiness_classification_witness :
    compare_nodes [("1", ([] : Node))] [] = none ∧
    (compare_nodes exA exB).isSome :=
  ⟨compare_nodes_truthiness_classification.1 [("1", [])] [] "1" rfl rfl,
   compare_nodes_truthiness_classification.2 exA exB (by simp [exA]) (by simp [exB])⟩

theorem filterMap_eq_filter_map {α β : Type} (spec : α → Option β) (cond : α → Bool)
    (payload : α → β) (hiff : ∀ x, (spec x).isSome = cond x)
    (hval : ∀ x y, spec x = some y → y = payload x) :
    ∀ l : List α, l.filterMap spec = (l.filter cond).map payload := by
  intro l
  induction l with
  | nil => rfl
  | cons x xs ih =>
    rw [List.filterMap_cons, List.filter_cons]
    cases hx : spec x with
    | none =>
      have hc : cond x = false := by rw [← hiff]; simp [hx]
      rw [hc]
      simpa using ih
    | some y =>
      have hc : cond x = true := by rw [← hiff]; simp [hx]
      rw [hc, hval x y hx]
      simpa using ih

theorem specOnlyFirst_val {a b : NodeIndex} {id : String} {rec : SummaryRecord}
    (h : specOnlyFirst a b id = some rec) :
    rec = summaryRecord id ((dictGet a id).getD []) := by
  unfold specOnlyFirst at h
  split at h
  · cases hg : dictGet a id <;> rw [hg] at h <;> simp_all
  · simp at h

theorem specOnlySecond_val {a b : NodeIndex} {id : String} {rec : SummaryRecord}
    (h : specOnlySecond a b id = some rec) :
    rec = summaryRecord id ((dictGet b id).getD []) := by
  unfold specOnlySecond at h
  split at h
  · cases hg : dictGet b id <;> rw [hg] at h <;> simp_all
  · simp at h

theorem specBoth_val {a b : NodeIndex} {id : String} {rec : SummaryRecord}
    (h : specBoth a b id = some rec) :
    rec = summaryRecord id ((dictGet a id).getD []) := by
  unfold specBoth at h
  split at h
  · cases hg : dictGet a id <;> rw [hg] at h <;> simp_all
  · simp at h

/-- Counterexample to C5: for a node with no `nodegroup_id` field the
summary record's `nodegroup_id` is the labelled string
`"NODE_GROUP_ID: Unknown"`, not the literal string `"Unknown"`. -/
theorem only_in_first_nodegroup_not_unknown :
    compare_nodes exA exB =
      some { only_in_first_file := [{ nodeid := "1", name := Value.str "Unknown",
                                      nodegroup_id := "NODE_GROUP_ID: Unknown" }]
             only_in_second_file := []
             present_in_both := []
             differing_fields := [] } ∧
    "NODE_GROUP_ID: Unknown" ≠ "Unknown" :=
  ⟨rfl, by decide⟩

/-- C5 (amended) — Each summary list collects, per qualifying nodeid, a
record with exactly the fields `nodeid`, `name` and `nodegroup_id`, where
`name` is the node's raw `name` value defaulted to the string `"Unknown"`,
and `nodegroup_id` is the string `"NODE_GROUP_ID: "` followed by `str` of
the node's `nodegroup_id` value, or by `"Unknown"` when the field is
missing (`only_in_first_file` and `present_in_both` read the first index's
copy, `only_in_second_file` the second's). -/
theorem summary_record_shape (a b : NodeIndex) (r : CompareResult)
    (h : compare_nodes a b = some r) :
    r.only_in_first_file =
      ((allNodeids a b).filter (onlyFirstCond a b)).map (fun id =>
        { nodeid := id
          name := (dictGet ((dictGet a id).getD []) "name").getD (.str "Unknown")
          nodegroup_id := "NODE_GROUP_ID: " ++
            (match dictGet ((dictGet a id).getD []) "nodegroup_id" with
             | some v => pyStr v
             | none => "Unknown") }) ∧
    r.only_in_second_file =
      ((allNodeids a b).filter (onlySecondCond a b)).map (fun id =>
        { nodeid := id
          name := (dictGet ((dictGet b id).getD []) "name").getD (.str "Unknown")
          nodegroup_id := "NODE_GROUP_ID: " ++
            (match dictGet ((dictGet b id).getD []) "nodegroup_id" with
             | some v => pyStr v
             | none => "Unknown") }) ∧
    r.present_in_both =
      ((allNodeids a b).filter
          (fun id => !onlyFirstCond a b id && !onlySecondCond a b id && (dictGet a id).isSome)).map
        (fun id =>
          { nodeid := id
            name := (dictGet ((dictGet a id).getD []) "name").getD (.str "Unknown")
            nodegroup_id := "NODE_GROUP_ID: " ++
              (match dictGet ((dictGet a id).getD []) "nodegroup_id" with
               | some v => pyStr v
               | none => "Unknown") }) := by
  obtain ⟨-, rfl⟩ := compare_eq_some_iff.mp h
  refine ⟨?_, ?_, ?_⟩
  · exact filterMap_eq_filter_map (specOnlyFirst a b) (onlyFirstCond a b) _
      (specOnlyFirst_isSome a b) (fun x y hxy => specOnlyFirst_val hxy) (allNodeids a b)
  · exact filterMap_eq_filter_map (specOnlySecond a b) (onlySecondCond a b) _
      (specOnlySecond_isSome a b) (fun x y hxy => specOnlySecond_val hxy) (allNodeids a b)
  · exact filterMap_eq_filter_map (specBoth a b) _ _
      (specBoth_isSome a b) (fun x y hxy => specBoth_val hxy) (allNodeids a b)

/-- Witness for the amended C5 at the concrete one-node indexes. -/
theorem summary_record_shape_witness :
    ((compare_nodes exA exB).getD emptyResults).only_in_first_file =
      ((allNodeids exA exB).filter (onlyFirstCond exA exB)).map (fun id =>
        { nodeid := id
          name := (dictGet ((dictGet exA id).getD []) "name").getD (.str "Unknown")
          nodegroup_id := "NODE_GROUP_ID: " ++
            (match dictGet ((dictGet exA id).getD []) "nodegroup_id" with
             | some v => pyStr v
             | none => "Unknown") }) ∧
    ((compare_nodes exA exB).getD emptyResults).only_in_second_file =
      ((allNodeids exA exB).filter (onlySecondCond exA exB)).map (fun id =>
        { nodeid := id
          name := (dictGet ((dictGet exB id).getD []) "name").getD (.str "Unknown")
          nodegroup_id := "NODE_GROUP_ID: " ++
            (match dictGet ((dictGet exB id).getD []) "nodegroup_id" with
             | some v => pyStr v
             | none => "Unknown") }) ∧
    ((compare_nodes exA exB).getD emptyResults).present_in_both =
      ((allNodeids exA exB).filter
          (fun id => !onlyFirstCond exA exB id && !onlySecondCond exA exB id &&
            (dictGet exA id).isSome)).map
        (fun id =>
          { nodeid := id
            name := (dictGet ((dictGet exA id).getD []) "name").getD (.str "Unknown")
            nodegroup_id := "NODE_GROUP_ID: " ++
              (match dictGet ((dictGet exA id).getD []) "nodegroup_id" with
               | some v => pyStr v
               | none => "Unknown") }) :=
  summary_record_shape exA exB ((compare_nodes exA exB).getD emptyResults) (by rfl)

theorem beq_symm {α : Type} [BEq α] [LawfulBEq α] (x y : α) : (x == y) = (y == x) := by
  by_cases h : x = y
  · subst h; rfl
  · rw [beq_eq_false_iff_ne.mpr h, beq_eq_false_iff_ne.mpr (fun he => h he.symm)]

mutual

/-- Python `==` on JSON values is symmetric. -/
theorem pyEq_symm : ∀ (v w : Value), pyEq v w = pyEq w v
  | .null, .null => rfl
  | .null, .bool _ => by simp only [pyEq]
  | .null, .int _ => by simp only [pyEq]
  | .null, .str _ => by simp only [pyEq]
  | .null, .list _ => by simp only [pyEq]
  | .null, .obj _ => by simp only [pyEq]
  | .bool _, .null => by simp only [pyEq]
  | .bool a, .bool b => by simp only [pyEq]; exact beq_symm a b
  | .bool a, .int b => by simp only [pyEq]; exact beq_symm _ b
  | .bool _, .str _ => by simp only [pyEq]
  | .bool _, .list _ => by simp only [pyEq]
  | .bool _, .obj _ => by simp only [pyEq]
  | .int _, .null => by simp only [pyEq]
  | .int a, .bool b => by simp only [pyEq]; exact beq_symm a _
  | .int a, .int b => by simp only [pyEq]; exact beq_symm a b
  | .int _, .str _ => by simp only [pyEq]
  | .int _, .list _ => by simp only [pyEq]
  | .int _, .obj _ => by simp only [pyEq]
  | .str _, .null => by simp only [pyEq]
  | .str _, .bool _ => by simp only [pyEq]
  | .str _, .int _ => by simp only [pyEq]
  | .str a, .str b => by simp only [pyEq]; exact beq_symm a b
  | .str _, .list _ => by simp only [pyEq]
  | .str _, .obj _ => by simp only [pyEq]
  | .list _, .null => by simp only [pyEq]
  | .list _, .bool _ => by simp only [pyEq]
  | .list _, .int _ => by simp only [pyEq]
  | .list _, .str _ => by simp only [pyEq]
  | .list xs, .list ys => by simp only [pyEq]; exact pyEqList_symm xs ys
  | .list _, .obj _ => by simp only [pyEq]
  | .obj _, .null => by simp only [pyEq]
  | .obj _, .bool _ => by simp only [pyEq]
  | .obj _, .int _ => by simp only [pyEq]
  | .obj _, .str _ => by simp only [pyEq]
  | .obj _, .list _ => by simp only [pyEq]
  | .obj a, .obj b => by simp only [pyEq]; exact Bool.and_comm _ _
termination_by v w => sizeOf v + sizeOf w
decreasing_by
  all_goals simp_wf
  all_goals omega

/-- Elementwise Python `==` on arrays is symmetric. -/
theorem pyEqList_symm : ∀ (xs ys : List Value), pyEqList xs ys = pyEqList ys xs
  | [], [] => rfl
  | [], _ :: _ => by simp only [pyEqList]
  | _ :: _, [] => by simp only [pyEqList]
  | x :: xs, y :: ys => by
    simp only [pyEqList]
    rw [pyEq_symm x y, pyEqList_symm xs ys]
termination_by xs ys => sizeOf xs + sizeOf ys
decreasing_by
  all_goals simp_wf
  all_goals omega

end

theorem pyEqOptNode_symm (x y : Option Node) : pyEqOptNode x y = pyEqOptNode y x := by
  cases x <;> cases y <;> simp only [pyEqOptNode]
  exact pyEq_symm _ _

/-- The entry the field loop (lines 112-119) contributes for one key, if
any. -/
def diffEntry (na nb : Node) (key : String) : Option (String × DiffEntry) :=
  let val_a := (dictGet na key).getD .null
  let val_b := (dictGet nb key).getD .null
  if pyEq val_a val_b then none else some (key, ⟨val_a, val_b⟩)

theorem foldl_collect {α β : Type} (g : α → Option β) :
    ∀ (l : List α) (acc : List β),
      l.foldl (fun ds k => (g k).elim ds (fun e => ds ++ [e])) acc =
        acc ++ l.filterMap g := by
  intro l
  induction l with
  | nil => intro acc; simp
  | cons x xs ih =>
    intro acc
    rw [List.foldl_cons, List.filterMap_cons]
    cases hx : g x with
    | none => simp only [hx, Option.elim_none]; simpa using ih acc
    | some e =>
      simp only [hx, Option.elim_some]
      rw [ih (acc ++ [e])]
      simp

theorem fieldDiffs_eq_filterMap (na nb : Node) :
    fieldDiffs na nb =
      (unionKeys (na.map Prod.fst) (nb.map Prod.fst)).filterMap (diffEntry na nb) := by
  rw [fieldDiffs]
  have hfun : (fun (ds : List (String × DiffEntry)) key =>
        if pyEq ((dictGet na key).getD .null) ((dictGet nb key).getD .null) then ds
        else ds ++ [(key, ⟨(dictGet na key).getD .null, (dictGet nb key).getD .null⟩)]) =
      (fun ds k => (diffEntry na nb k).elim ds (fun e => ds ++ [e])) := by
    funext ds key
    rw [diffEntry]
    by_cases hp : pyEq ((dictGet na key).getD .null) ((dictGet nb key).getD .null) <;>
      simp [hp]
  rw [hfun]
  simpa using foldl_collect (diffEntry na nb) (unionKeys (na.map Prod.fst) (nb.map Prod.fst)) []

theorem filterMap_congr_map {α β γ : Type} (g : α → Option β) (g2 : α → Option γ)
    (h : β → γ) (hg : ∀ x, g2 x = (g x).map h) :
    ∀ l : List α, l.filterMap g2 = (l.filterMap g).map h := by
  intro l
  induction l with
  | nil => rfl
  | cons x xs ih =>
    rw [List.filterMap_cons, List.filterMap_cons, hg x]
    cases hx : g x with
    | none => simpa using ih
    | some y => simp [ih]

/-- Swapping one differing-field entry. -/
def swapEntry (q : String × DiffEntry) : String × DiffEntry :=
  (q.1, ⟨q.2.second_file, q.2.first_file⟩)

theorem diffEntry_swap (na nb : Node) (k : String) :
    diffEntry nb na k = (diffEntry na nb k).map swapEntry := by
  rw [diffEntry, diffEntry, pyEq_symm]
  by_cases hp : pyEq ((dictGet na k).getD .null) ((dictGet nb k).getD .null) <;>
    simp [hp, swapEntry]

theorem fieldDiffs_swap (na nb : Node) :
    fieldDiffs nb na = (fieldDiffs na nb).map swapEntry := by
  rw [fieldDiffs_eq_filterMap, fieldDiffs_eq_filterMap, unionKeys_comm]
  exact filterMap_congr_map _ _ _ (diffEntry_swap na nb) _

theorem allNodeids_comm (a b : NodeIndex) : allNodeids b a = allNodeids a b :=
  unionKeys_comm _ _

theorem stepOk_swap (a b : NodeIndex) (id : String) : stepOk b a id = stepOk a b id := by
  rw [stepOk, stepOk]
  have hc1 : onlyFirstCond b a id = onlySecondCond a b id := rfl
  have hc2 : onlySecondCond b a id = onlyFirstCond a b id := rfl
  rw [hc1, hc2, Bool.or_comm]
  by_cases h : (onlyFirstCond a b id || onlySecondCond a b id) = true
  · rw [if_pos h, if_pos h]
  · rw [if_neg h, if_neg h]
    cases ha : dictGet a id <;> cases hb : dictGet b id <;>
      simp [pyEqOptNode]

theorem specDiff_swap (a b : NodeIndex) (id : String) :
    specDiff b a id = (specDiff a b id).map (fun p => (p.1, p.2.map swapEntry)) := by
  rw [specDiff, specDiff]
  have hc : (!onlyFirstCond b a id && !onlySecondCond b a id)
      = (!onlyFirstCond a b id && !onlySecondCond a b id) := by
    show (!onlySecondCond a b id && !onlyFirstCond a b id) = _
    exact Bool.and_comm _ _
  rw [hc]
  by_cases h : (!onlyFirstCond a b id && !onlySecondCond a b id) = true
  · rw [if_pos h, if_pos h]
    cases ha : dictGet a id with
    | none => cases hb : dictGet b id <;> rfl
    | some na =>
      cases hb : dictGet b id with
      | none => rfl
      | some nb =>
        show (if pyEq (Value.obj nb) (Value.obj na) = true then none
              else if (fieldDiffs nb na).isEmpty = true then none
              else some (id, fieldDiffs nb na)) =
            Option.map (fun p => (p.1, List.map swapEntry p.2))
              (if pyEq (Value.obj na) (Value.obj nb) = true then none
               else if (fieldDiffs na nb).isEmpty = true then none
               else some (id, fieldDiffs na nb))
        rw [pyEq_symm]
        by_cases hp : pyEq (.obj na) (.obj nb) = true
        · rw [if_pos hp, if_pos hp]
          rfl
        · rw [if_neg hp, if_neg hp, fieldDiffs_swap]
          cases hfd : fieldDiffs na nb with
          | nil => rfl
          | cons q qs => rfl
  · rw [if_neg h, if_neg h]
    rfl

theorem specBoth_swap_nodeid (a b : NodeIndex) (id : String) (hok : stepOk a b id = true) :
    (specBoth b a id).map SummaryRecord.nodeid = (specBoth a b id).map SummaryRecord.nodeid := by
  rw [specBoth, specBoth]
  have hc : (!onlyFirstCond b a id && !onlySecondCond b a id)
      = (!onlyFirstCond a b id && !onlySecondCond a b id) := by
    show (!onlySecondCond a b id && !onlyFirstCond a b id) = _
    exact Bool.and_comm _ _
  rw [hc]
  by_cases h : (!onlyFirstCond a b id && !onlySecondCond a b id) = true
  · rw [if_pos h, if_pos h]
    rw [Bool.and_eq_true] at h
    rcases stepOk_cases hok with h1 | h2 | ⟨-, hsa, hsb⟩
    · rw [h1] at h
      simp at h
    · rw [h2] at h
      simp at h
    · obtain ⟨na, hga⟩ := Option.isSome_iff_exists.mp hsa
      obtain ⟨nb, hgb⟩ := Option.isSome_iff_exists.mp hsb
      rw [hga, hgb]
      rfl
  · rw [if_neg h, if_neg h]

/-- C2 — Swapping the two indexes swaps the two only-in lists exactly
(records included), keeps the nodeids of `present_in_both` (the displayed
name/nodegroup come from the other side's copy), and swaps `first_file`
with `second_file` inside every `differing_fields` entry; consequently all
summary cardinalities are preserved with only-in-first and only-in-second
exchanged. -/
theorem compare_nodes_symm (a b : NodeIndex) (r : CompareResult)
    (h : compare_nodes a b = some r) :
    compare_nodes b a = some (specResult b a) ∧
    (specResult b a).only_in_first_file = r.only_in_second_file ∧
    (specResult b a).only_in_second_file = r.only_in_first_file ∧
    (specResult b a).present_in_both.map SummaryRecord.nodeid =
      r.present_in_both.map SummaryRecord.nodeid ∧
    (specResult b a).differing_fields =
      r.differing_fields.map (fun p => (p.1, p.2.map swapEntry)) := by
  obtain ⟨hall, rfl⟩ := compare_eq_some_iff.mp h
  rw [List.all_eq_true] at hall
  have hall2 : (allNodeids b a).all (stepOk b a) = true := by
    rw [allNodeids_comm, List.all_eq_true]
    intro id hid
    rw [stepOk_swap]
    exact hall id hid
  refine ⟨?_, ?_, ?_, ?_, ?_⟩
  · rw [compare_nodes_spec, if_pos hall2]
  · show (allNodeids b a).filterMap (specOnlyFirst b a) =
      (allNodeids a b).filterMap (specOnlySecond a b)
    rw [allNodeids_comm]
    rfl
  · show (allNodeids b a).filterMap (specOnlySecond b a) =
      (allNodeids a b).filterMap (specOnlyFirst a b)
    rw [allNodeids_comm]
    rfl
  · show ((allNodeids b a).filterMap (specBoth b a)).map SummaryRecord.nodeid =
      ((allNodeids a b).filterMap (specBoth a b)).map SummaryRecord.nodeid
    rw [allNodeids_comm,
      map_filterMap_eq_filter _ _ (fun x y hxy => specBoth_nodeid hxy),
      map_filterMap_eq_filter _ _ (fun x y hxy => specBoth_nodeid hxy)]
    apply List.filter_congr
    intro id hid
    have := congrArg Option.isSome (specBoth_swap_nodeid a b id (hall id hid))
    simpa [Option.isSome_map] using this
  · show (allNodeids b a).filterMap (specDiff b a) =
      ((allNodeids a b).filterMap (specDiff a b)).map (fun p => (p.1, p.2.map swapEntry))
    rw [allNodeids_comm]
    exact filterMap_congr_map _ _ _ (specDiff_swap a b) _

/-- Witness for C2 at the concrete one-node indexes. -/
theorem compare_nodes_symm_witness :
    compare_nodes exB exA = some (specResult exB exA) ∧
    (specResult exB exA).only_in_first_file =
      ((compare_nodes exA exB).getD emptyResults).only_in_second_file ∧
    (specResult exB exA).only_in_second_file =
      ((compare_nodes exA exB).getD emptyResults).only_in_first_file ∧
    (specResult exB exA).present_in_both.map SummaryRecord.nodeid =
      ((compare_nodes exA exB).getD emptyResults).present_in_both.map SummaryRecord.nodeid ∧
    (specResult exB exA).differing_fields =
      ((compare_nodes exA exB).getD emptyResults).differing_fields.map
        (fun p => (p.1, p.2.map swapEntry)) :=
  compare_nodes_symm exA exB ((compare_nodes exA exB).getD emptyResults) (by rfl)

theorem pyEqSub_lookup : ∀ {na nb : Node} {k : String} {v : Value},
    pyEqSub na nb = true → dictGet na k = some v →
    ∃ w, dictGet nb k = some w ∧ pyEq v w = true := by
  intro na
  induction na with
  | nil =>
    intro nb k v hs hg
    simp [dictGet] at hg
  | cons p rest ih =>
    intro nb k v hs hg
    obtain ⟨k1, v1⟩ := p
    simp only [pyEqSub] at hs
    rw [Bool.and_eq_true] at hs
    obtain ⟨hhead, htail⟩ := hs
    rw [dictGet] at hg
    split at hg
    · rename_i hk
      cases hg
      cases hw : dictGet nb k1 with
      | none =>
        rw [hw] at hhead
        simp at hhead
      | some w =>
        rw [hw] at hhead
        simp at hhead
        exact ⟨w, by rw [← hk]; exact hw, hhead⟩
    · exact ih htail hg

theorem pyEq_obj_field {na nb : Node} (h : pyEq (.obj na) (.obj nb) = true) (k : String) :
    pyEq ((dictGet na k).getD .null) ((dictGet nb k).getD .null) = true := by
  simp only [pyEq] at h
  rw [Bool.and_eq_true] at h
  obtain ⟨hab, hba⟩ := h
  cases hga : dictGet na k with
  | some v =>
    obtain ⟨w, hw, hvw⟩ := pyEqSub_lookup hab hga
    rw [hw]
    simpa using hvw
  | none =>
    cases hgb : dictGet nb k with
    | none => simp [pyEq]
    | some w =>
      obtain ⟨v, hv, -⟩ := pyEqSub_lookup hba hgb
      rw [hga] at hv
      cases hv

theorem diffEntry_fst {na nb : Node} {k : String} {e : String × DiffEntry}
    (h : diffEntry na nb k = some e) : e.1 = k := by
  rw [diffEntry] at h
  split at h
  · cases h
  · cases h
    rfl

theorem diffEntry_isSome (na nb : Node) (k : String) :
    (diffEntry na nb k).isSome =
      !pyEq ((dictGet na k).getD .null) ((dictGet nb k).getD .null) := by
  rw [diffEntry]
  by_cases hp : pyEq ((dictGet na k).getD .null) ((dictGet nb k).getD .null) = true <;>
    simp [hp]

theorem fieldDiffs_nil_of_pyEq {na nb : Node} (h : pyEq (.obj na) (.obj nb) = true) :
    fieldDiffs na nb = [] := by
  rw [fieldDiffs_eq_filterMap, List.filterMap_eq_nil]
  intro k hk
  rw [diffEntry]
  simp [pyEq_obj_field h k]

theorem mem_fieldDiffs_keys (na nb : Node) (k : String) :
    k ∈ (fieldDiffs na nb).map Prod.fst ↔
      pyEq ((dictGet na k).getD .null) ((dictGet nb k).getD .null) = false := by
  rw [fieldDiffs_eq_filterMap,
    map_filterMap_eq_filter (diffEntry na nb) Prod.fst (fun x y hxy => diffEntry_fst hxy),
    List.mem_filter]
  constructor
  · rintro ⟨-, hsome⟩
    rw [diffEntry_isSome] at hsome
    simpa using hsome
  · intro hne
    refine ⟨?_, by rw [diffEntry_isSome, hne]; rfl⟩
    rw [mem_unionKeys]
    by_contra hnot
    push_neg at hnot
    have h1 : dictGet na k = none := dictGet_eq_none_of_not_mem hnot.1
    have h2 : dictGet nb k = none := dictGet_eq_none_of_not_mem hnot.2
    rw [h1, h2] at hne
    simp [pyEq] at hne

/-- The node `{"nodeid": "1", "name": "X", "val": 5}` of the spec's
field-diff example. -/
def exNodeA9 : Node := [("nodeid", Value.str "1"), ("name", Value.str "X"), ("val", Value.int 5)]

/-- The node `{"nodeid": "1", "name": "X", "val": 7}`. -/
def exNodeB9 : Node := [("nodeid", Value.str "1"), ("name", Value.str "X"), ("val", Value.int 7)]

/-- Index mapping `"1"` to `exNodeA9`. -/
def exA9 : NodeIndex := [("1", exNodeA9)]

/-- Index mapping `"1"` to `exNodeB9`. -/
def exB9 : NodeIndex := [("1", exNodeB9)]

/-- C9 — (i) on the spec's example the differ yields exactly
`differing_fields = {"1": {"val": {first_file: 5, second_file: 7}}}` with no
entry for `"name"`; (ii) a field key is recorded in the field diffs of two
matched records iff its two values (missing read as null) are not
Python-equal; (iii) a nodeid matched by two non-empty records appears in
`differing_fields` iff it has at least one differing field. -/
theorem differing_fields_exact :
    (compare_nodes exA9 exB9 =
      some { only_in_first_file := []
             only_in_second_file := []
             present_in_both := [{ nodeid := "1", name := Value.str "X",
                                   nodegroup_id := "NODE_GROUP_ID: Unknown" }]
             differing_fields := [("1", [("val", ⟨Value.int 5, Value.int 7⟩)])] }) ∧
    (∀ (na nb : Node) (k : String),
        k ∈ (fieldDiffs na nb).map Prod.fst ↔
          pyEq ((dictGet na k).getD .null) ((dictGet nb k).getD .null) = false) ∧
    (∀ (a b : NodeIndex) (r : CompareResult) (id : String) (na nb : Node),
        compare_nodes a b = some r → dictGet a id = some na → dictGet b id = some nb →
        na.isEmpty = false → nb.isEmpty = false →
        (id ∈ r.differing_fields.map Prod.fst ↔ fieldDiffs na nb ≠ [])) := by
  refine ⟨?_, mem_fieldDiffs_keys, ?_⟩
  · have f1 : ("name" : String) ≤ "val" := by rw [String.le_iff_toList_le]; decide
    have f2 : ¬(("nodeid" : String) ≤ "name") := by rw [String.le_iff_toList_le]; decide
    have f3 : ("nodeid" : String) ≤ "val" := by rw [String.le_iff_toList_le]; decide
    have g1 : ¬(['n', 'o', 'd', 'e', 'i', 'd'] ≤ ['n', 'a', 'm', 'e']) := by decide
    have g2 : ['n', 'o', 'd', 'e', 'i', 'd'] ≤ ['v', 'a', 'l'] := by decide
    have g3 : ['n', 'a', 'm', 'e'] ≤ ['v', 'a', 'l'] := by decide
    simp [compare_nodes, cmpStep, unionKeys, dictGet, truthyOpt, pyEqOptNode,
      pyEq, pyEqSub, pyEqList, summaryRecord, fieldDiffs, emptyResults,
      exA9, exB9, exNodeA9, exNodeB9,
      List.insertionSort, List.orderedInsert, List.dedup, List.pwFilter,
      f1, f2, f3, g1, g2, g3,
      show "NODE_GROUP_ID: " ++ "Unknown" = "NODE_GROUP_ID: Unknown" from rfl]
  · intro a b r id na nb h hga hgb hea heb
    obtain ⟨hall, rfl⟩ := compare_eq_some_iff.mp h
    rw [specResult_diff_nodeids, List.mem_filter]
    have hmem : id ∈ allNodeids a b := by
      rw [allNodeids, mem_unionKeys]
      exact Or.inl (mem_keys_of_dictGet hga)
    have hta : truthyOpt (dictGet a id) = true := by rw [hga, truthyOpt, hea]; rfl
    have htb : truthyOpt (dictGet b id) = true := by rw [hgb, truthyOpt, heb]; rfl
    have hc1 : onlyFirstCond a b id = false := by rw [onlyFirstCond, hta, htb]; rfl
    have hc2 : onlySecondCond a b id = false := by rw [onlySecondCond, htb, hta]; rfl
    have hspec : specDiff a b id =
        (if pyEq (.obj na) (.obj nb) = true then none
         else if (fieldDiffs na nb).isEmpty = true then none
         else some (id, fieldDiffs na nb)) := by
      rw [specDiff, if_pos (by rw [hc1, hc2]; rfl), hga, hgb]
    constructor
    · rintro ⟨-, hsome⟩
      intro hnil
      simp only [hspec, hnil] at hsome
      by_cases hp : pyEq (.obj na) (.obj nb) = true <;> simp [hp] at hsome
    · intro hne
      refine ⟨hmem, ?_⟩
      have hp : pyEq (.obj na) (.obj nb) = false := by
        by_contra hpp
        exact hne (fieldDiffs_nil_of_pyEq (by simpa using hpp))
      simp only [hspec, hp]
      cases hfd : fieldDiffs na nb with
      | nil => exact absurd hfd hne
      | cons q qs => simp

/-- Witness for C9 at the spec's example nodes. -/
theorem differing_fields_exact_witness :
    ("val" ∈ (fieldDiffs exNodeA9 exNodeB9).map Prod.fst ↔
      pyEq ((dictGet exNodeA9 "val").getD .null) ((dictGet exNodeB9 "val").getD .null) = false) ∧
    ("1" ∈ ({ only_in_first_file := []
              only_in_second_file := []
              present_in_both := [{ nodeid := "1", name := Value.str "X",
                                    nodegroup_id := "NODE_GROUP_ID: Unknown" }]
              differing_fields := [("1", [("val", ⟨Value.int 5, Value.int 7⟩)])] } :
          CompareResult).differing_fields.map Prod.fst ↔
      fieldDiffs exNodeA9 exNodeB9 ≠ []) :=
  ⟨differing_fields_exact.2.1 exNodeA9 exNodeB9 "val",
   differing_fields_exact.2.2 exA9 exB9 _ "1" exNodeA9 exNodeB9
     differing_fields_exact.1 rfl rfl rfl rfl⟩

/-- A node whose `nodegroup_id` is the number 5. -/
def exNodeA8 : Node := [("nodeid", Value.str "1"), ("nodegroup_id", Value.int 5)]

/-- The same node with `nodegroup_id` as the string `"5"`. -/
def exNodeB8 : Node := [("nodeid", Value.str "1"), ("nodegroup_id", Value.str "5")]

/-- C8 — The identity-field normalizer `cast_node` is not invoked by
`compare_nodes`: with an integer `nodegroup_id` in one record and its
string form in the other, the differ records `nodegroup_id` as a differing
field without crashing, even though both identifiers have the same string
form; had the records been normalized with `cast_node` first, no differing
field would have been reported. -/
theorem cast_node_not_in_compare_path :
    compare_nodes [("1", exNodeA8)] [("1", exNodeB8)] =
      some { only_in_first_file := []
             only_in_second_file := []
             present_in_both := [{ nodeid := "1", name := Value.str "Unknown",
                                   nodegroup_id := "NODE_GROUP_ID: 5" }]
             differing_fields := [("1", [("nodegroup_id", ⟨Value.int 5, Value.str "5"⟩)])] } ∧
    pyStr (Value.int 5) = pyStr (Value.str "5") ∧
    compare_nodes [("1", cast_node exNodeA8)] [("1", cast_node exNodeB8)] =
      some { only_in_first_file := []
             only_in_second_file := []
             present_in_both := [{ nodeid := "1", name := Value.str "Unknown",
                                   nodegroup_id := "NODE_GROUP_ID: 5" }]
             differing_fields := [] } := by
  have f1 : ¬(("nodeid" : String) ≤ "nodegroup_id") := by
    rw [String.le_iff_toList_le]; decide
  have g1 : ¬(['n', 'o', 'd', 'e', 'i', 'd'] ≤
      ['n', 'o', 'd', 'e', 'g', 'r', 'o', 'u', 'p', '_', 'i', 'd']) := by decide
  have hcastA : cast_node exNodeA8 = [("nodeid", Value.str "1"), ("nodegroup_id", Value.str "5")] := by
    simp [cast_node, exNodeA8, dictGet, dictSet, Value.isNull, pyStr, pyRepr,
      show toString (5 : Int) = "5" from rfl]
  have hcastB : cast_node exNodeB8 = [("nodeid", Value.str "1"), ("nodegroup_id", Value.str "5")] := by
    simp [cast_node, exNodeB8, dictGet, dictSet, Value.isNull, pyStr, pyRepr,
      show toString (5 : Int) = "5" from rfl]
  refine ⟨?_, by simp [pyStr, pyRepr, show toString (5 : Int) = "5" from rfl], ?_⟩
  · simp [compare_nodes, cmpStep, unionKeys, dictGet, truthyOpt, pyEqOptNode,
      pyEq, pyEqSub, pyEqList, summaryRecord, fieldDiffs, emptyResults,
      exNodeA8, exNodeB8, pyStr, pyRepr,
      List.insertionSort, List.orderedInsert, List.dedup, List.pwFilter,
      f1, g1, show toString (5 : Int) = "5" from rfl,
      show "NODE_GROUP_ID: " ++ "5" = "NODE_GROUP_ID: 5" from rfl]
  · rw [hcastA, hcastB]
    simp [compare_nodes, cmpStep, unionKeys, dictGet, truthyOpt, pyEqOptNode,
      pyEq, pyEqSub, pyEqList, summaryRecord, fieldDiffs, emptyResults,
      pyStr, pyRepr,
      List.insertionSort, List.orderedInsert, List.dedup, List.pwFilter,
      f1, g1, show toString (5 : Int) = "5" from rfl,
      show "NODE_GROUP_ID: " ++ "5" = "NODE_GROUP_ID: 5" from rfl]
